import Mathlib

/-!
# Verification of the requestrepo client library

Shallow embedding of `src/requestrepo/__init__.py` (class `Requestrepo`) and
`src/requestrepo/models/__init__.py`.  Bytes are modelled as `List Nat`
(each entry a byte value), Python dicts as ordered association lists, and the
websocket channel as the list of events it will deliver, in order; a
synchronous call that would block forever is modelled by `Option`/a `blocked`
outcome.
-/

namespace Requestrepo

/-- `models.HttpRequest` (pydantic model): one captured HTTP request. -/
structure HttpRequest where
  _id : String
  type : String
  raw : List Nat
  uid : String
  ip : String
  country : Option String
  port : Nat
  date : Nat
  headers : List (String × String)
  method : String
  protocol : String
  path : String
  fragment : String
  query : String
  url : String
deriving DecidableEq

/-- `models.DnsRequest` (pydantic model): one captured DNS request. -/
structure DnsRequest where
  _id : String
  type : String
  raw : List Nat
  uid : String
  ip : String
  country : Option String
  port : Nat
  date : Nat
  dtype : String
  name : String
  reply : String
deriving DecidableEq

/-- `Union[HttpRequest, DnsRequest]`, the element type of the internal queue
and of the event channel. -/
inductive Request where
  | http : HttpRequest → Request
  | dns : DnsRequest → Request
deriving DecidableEq

/-- The scan phase of `get_request` (lines 133-136 of the source):
`for i, request in enumerate(self.__queue): if filter(request): return
self.__queue.pop(i)`.  Returns the first queued request satisfying the
predicate together with the queue with that single element removed, or
`none` when no queued request matches. -/
def scanQueue (p : Request → Bool) : List Request → Option (Request × List Request)
  | [] => none
  | r :: rest =>
    if p r then some (r, rest)
    else
      match scanQueue p rest with
      | none => none
      | some (q, rest') => some (q, r :: rest')

/-- The draw phase of `get_request` (lines 138-144 of the source): draw a
decoded event from the channel; with a predicate, append each non-matching
event to the tail of the queue and draw again.  The result is the returned
request, the queue afterwards and the part of the channel not yet consumed;
`none` models the call blocking forever because the channel delivers no
further (matching) event. -/
def drawLoop (f : Option (Request → Bool)) :
    List Request → List Request → Option (Request × List Request × List Request)
  | _, [] => none
  | queue, r :: chan =>
    match f with
    | none => some (r, queue, chan)
    | some p => if p r then some (r, queue, chan) else drawLoop f (queue ++ [r]) chan

/-- `Requestrepo.get_request` (lines 126-144 of the source), as a function of
the optional filter, the current `__queue` and the pending channel events.
`if filter and self.__queue:` guards the scan phase, so with no filter, or
with an empty queue, control goes straight to the draw phase. -/
def get_request (f : Option (Request → Bool)) (queue chan : List Request) :
    Option (Request × List Request × List Request) :=
  match f with
  | some p =>
    if queue.isEmpty then drawLoop f queue chan
    else
      match scanQueue p queue with
      | some (r, queue') => some (r, queue', chan)
      | none => drawLoop f queue chan
  | none => drawLoop f queue chan

/-- A minimal concrete HTTP event used as test data, distinguished by its
path. -/
def mkEvent (path : String) : Request :=
  .http { _id := path, type := "http", raw := [], uid := "u", ip := "1.1.1.1",
          country := none, port := 80, date := 0, headers := [],
          method := "GET", protocol := "HTTP/1.1", path := path,
          fragment := "", query := "", url := path }

def evA : Request := mkEvent "/a"

def evB : Request := mkEvent "/b"

def evC : Request := mkEvent "/c"

/-- A predicate matching only `evA`. -/
def predA : Request → Bool
  | .http h => h.path == "/a"
  | .dns _ => false

/-- A predicate matching only `evB`. -/
def predB : Request → Bool
  | .http h => h.path == "/b"
  | .dns _ => false

/-- A sequence of `get_request` calls, threading the buffer and the channel.
Returns the list of requests handed to the caller, the final buffer and the
events never drawn from the channel; a call that would block forever ends the
run. -/
def runCalls : List (Option (Request → Bool)) → List Request → List Request →
    List Request × List Request × List Request
  | [], queue, chan => ([], queue, chan)
  | f :: fs, queue, chan =>
    match get_request f queue chan with
    | none => ([], queue, chan)
    | some (r, queue', chan') =>
      let rest := runCalls fs queue' chan'
      (r :: rest.1, rest.2)

/-- Outcome of a `get_request` call when the filter itself may raise: `raised`
models the exception propagating to the caller and carries the message
together with the queue and channel state at the moment it escapes. -/
inductive ExcOutcome where
  | ok : Request → List Request → List Request → ExcOutcome
  | blocked : List Request → ExcOutcome
  | raised : String → List Request → List Request → ExcOutcome
deriving DecidableEq

/-- Scan phase with a possibly-raising filter: `filter(request)` is evaluated
on the queued events head-to-tail until a match, an exception, or the end of
the queue; `pop(i)` happens only on a match, so an exception leaves the queue
untouched. -/
def scanQueueE (p : Request → Except String Bool) :
    List Request → Except String (Option (Request × List Request))
  | [] => .ok none
  | r :: rest =>
    match p r with
    | .error e => .error e
    | .ok true => .ok (some (r, rest))
    | .ok false =>
      match scanQueueE p rest with
      | .error e => .error e
      | .ok none => .ok none
      | .ok (some (q, rest')) => .ok (some (q, r :: rest'))

/-- Draw phase with a possibly-raising filter: each drawn event has already
been appended to the queue by the time the filter is evaluated on the next
one, and an exception escapes before the event it was evaluated on is either
returned or appended. -/
def drawLoopE (p : Request → Except String Bool) :
    List Request → List Request → ExcOutcome
  | queue, [] => .blocked queue
  | queue, r :: chan =>
    match p r with
    | .error e => .raised e queue chan
    | .ok true => .ok r queue chan
    | .ok false => drawLoopE p (queue ++ [r]) chan

/-- `get_request` with a filter that may raise, mirroring `get_request` with
the same control flow. -/
def get_request_exc (p : Request → Except String Bool) (queue chan : List Request) :
    ExcOutcome :=
  if queue.isEmpty then drawLoopE p queue chan
  else
    match scanQueueE p queue with
    | .error e => .raised e queue chan
    | .ok (some (r, queue')) => .ok r queue' chan
    | .ok none => drawLoopE p queue chan

/-- A filter that raises on `evA` and rejects everything else. -/
def predExc : Request → Except String Bool
  | .http h => if h.path == "/a" then .error "boom" else .ok false
  | .dns _ => .ok false

/-- In the source, `__queue` (line 20) is a class attribute that is only ever
mutated in place (`append`, line 141; `pop`, line 136) and never rebound on
an instance, so Python resolves `self.__queue` to the single class-level list
for every instance: all `Requestrepo` sessions share one buffer.  (By
contrast the snapshot `__old_requests` is rebound per instance in `__init__`,
line 80.)  The joint state of two open sessions is therefore one shared
buffer plus one channel per session. -/
structure TwoSessions where
  sharedQueue : List Request
  chan1 : List Request
  chan2 : List Request
deriving DecidableEq

/-- `get_request` invoked on the first instance: reads and writes the shared
queue, draws from the first instance's channel. -/
def get_request_fst (f : Option (Request → Bool)) (st : TwoSessions) :
    Option (Request × TwoSessions) :=
  match get_request f st.sharedQueue st.chan1 with
  | some (r, q, c) => some (r, { sharedQueue := q, chan1 := c, chan2 := st.chan2 })
  | none => none

/-- `get_request` invoked on the second instance: reads and writes the same
shared queue, draws from the second instance's channel. -/
def get_request_snd (f : Option (Request → Bool)) (st : TwoSessions) :
    Option (Request × TwoSessions) :=
  match get_request f st.sharedQueue st.chan2 with
  | some (r, q, c) => some (r, { sharedQueue := q, chan1 := st.chan1, chan2 := c })
  | none => none

/-- The value of one character of the standard base64 alphabet, `none` for a
non-alphabet character (including the padding `=`). -/
def b64val (c : Char) : Option Nat :=
  if 'A' ≤ c ∧ c ≤ 'Z' then some (c.toNat - 65)
  else if 'a' ≤ c ∧ c ≤ 'z' then some (c.toNat - 97 + 26)
  else if '0' ≤ c ∧ c ≤ '9' then some (c.toNat - 48 + 52)
  else if c = '+' then some 62
  else if c = '/' then some 63
  else none

/-- Reassemble bytes from base64 sextets, four sextets to three bytes, with
the usual truncated final group. -/
def b64groups : List Nat → List Nat
  | a :: b :: c :: d :: rest =>
    (a * 4 + b / 16) :: ((b % 16) * 16 + c / 4) :: ((c % 4) * 64 + d) ::
      b64groups rest
  | [a, b, c] => [a * 4 + b / 16, (b % 16) * 16 + c / 4]
  | [a, b] => [a * 4 + b / 16]
  | _ => []

/-- `base64.b64decode` on well-formed input: non-alphabet characters (such as
the `=` padding) are discarded — as CPython does with `validate=False` — and
the sextets are packed back into bytes. -/
def b64decode (s : String) : List Nat :=
  b64groups (s.data.filterMap b64val)

def b64chars : List Char :=
  "ABCDEFGHIJKLMNOPQRSTUVWXYZabcdefghijklmnopqrstuvwxyz0123456789+/".data

def b64char (n : Nat) : Char := b64chars.getD n '?'

/-- Split bytes into base64 sextet characters, three bytes to four
characters, padding the final group with `=`. -/
def b64encodeGroups : List Nat → List Char
  | a :: b :: c :: rest =>
    b64char (a / 4) :: b64char ((a % 4) * 16 + b / 16) ::
      b64char ((b % 16) * 4 + c / 64) :: b64char (c % 64) :: b64encodeGroups rest
  | [a, b] => [b64char (a / 4), b64char ((a % 4) * 16 + b / 16),
      b64char ((b % 16) * 4), '=']
  | [a] => [b64char (a / 4), b64char ((a % 4) * 16), '=', '=']
  | [] => []

/-- `base64.b64encode(...).decode()`. -/
def b64encode (bytes : List Nat) : String := ⟨b64encodeGroups bytes⟩

/-- The JSON wire payload of one pushed event, after `json.loads`: a `type`
discriminator, a base64-encoded `raw` field, and the remaining fields of the
two request shapes. -/
structure WireData where
  _id : String
  type : String
  raw : String
  uid : String
  ip : String
  country : Option String
  port : Nat
  date : Nat
  headers : List (String × String)
  method : String
  protocol : String
  path : String
  fragment : String
  query : String
  url : String
  dtype : String
  name : String
  reply : String
deriving DecidableEq

/-- The raw bytes carried by a decoded request, regardless of its kind. -/
def Request.rawBytes : Request → List Nat
  | .http h => h.raw
  | .dns d => d.raw

/-- The decoding step of `async_get_request` (lines 153-163 of the source):
`data["raw"] = base64.b64decode(data["raw"])` first, then dispatch on
`data["type"]`: `"http"` builds an `HttpRequest`, `"dns"` builds a
`DnsRequest`, anything else raises `ValueError` with a message carrying the
offending tag. -/
def decode_event (d : WireData) : Except String Request :=
  let rawBytes := b64decode d.raw
  if d.type = "http" then
    .ok (.http { _id := d._id, type := d.type, raw := rawBytes, uid := d.uid,
                 ip := d.ip, country := d.country, port := d.port,
                 date := d.date, headers := d.headers, method := d.method,
                 protocol := d.protocol, path := d.path, fragment := d.fragment,
                 query := d.query, url := d.url })
  else if d.type = "dns" then
    .ok (.dns { _id := d._id, type := d.type, raw := rawBytes, uid := d.uid,
                ip := d.ip, country := d.country, port := d.port,
                date := d.date, dtype := d.dtype, name := d.name,
                reply := d.reply })
  else .error ("Invalid request type: " ++ d.type)

/-- An invalid wire payload with discriminator "smtp". -/
def wireBad : WireData :=
  { _id := "1", type := "smtp", raw := "aGk=", uid := "u", ip := "1.1.1.1",
    country := none, port := 80, date := 0, headers := [], method := "",
    protocol := "", path := "", fragment := "", query := "", url := "",
    dtype := "", name := "", reply := "" }

/-- A well-formed HTTP wire payload. -/
def wireHttp : WireData :=
  { _id := "2", type := "http", raw := "aGk=", uid := "u", ip := "1.1.1.1",
    country := none, port := 80, date := 0, headers := [], method := "GET",
    protocol := "HTTP/1.1", path := "/t", fragment := "", query := "",
    url := "/t", dtype := "", name := "", reply := "" }

/-- A well-formed DNS wire payload. -/
def wireDns : WireData :=
  { _id := "3", type := "dns", raw := "aGk=", uid := "u", ip := "1.1.1.1",
    country := none, port := 53, date := 0, headers := [], method := "",
    protocol := "", path := "", fragment := "", query := "", url := "",
    dtype := "A", name := "x.example.com", reply := "" }

/-- Python `Union[int, str]` for a DNS record type: either a symbolic name or
a numeric index.  `int == str` comparisons are always `False` in Python, as
is equality of distinct constructors here. -/
inductive DnsType where
  | str : String → DnsType
  | int : Int → DnsType
deriving DecidableEq

/-- `models.DnsRecord` (pydantic model). -/
structure DnsRecord where
  type : DnsType
  domain : String
  value : String
deriving DecidableEq

/-- The fixed list of symbolic DNS types (line 257/283 of the source). -/
def dns_types : List String := ["A", "AAAA", "CNAME", "TXT"]

/-- The network calls made by a DNS management operation, in program order.
`getDns` is the `GET /api/get_dns` performed by `self.dns()`; `updateDns` is
the `POST /api/update_dns` performed by `self.update_dns(records)`. -/
inductive NetOp where
  | getDns : NetOp
  | updateDns : List DnsRecord → NetOp
deriving DecidableEq

/-- How a DNS management call ends: an update POST carrying the given
records, a raised `ValueError`, or (for `remove_dns`) `False` returned with
no update POST. -/
inductive DnsCall where
  | updated : List DnsRecord → DnsCall
  | raised : String → DnsCall
  | removedNothing : DnsCall
deriving DecidableEq

/-- The dnstype validation/normalization shared by `add_dns` (lines 267-272)
and `remove_dns` (lines 287-292): a string is replaced by its index in
`dns_types` (Python `list.index`, which raises `ValueError` when the value is
absent — the `== -1` check in the source is dead code); an integer raises
exactly when `dnstype < 0 or dnstype > len(dns_types)`, that is when
`n < 0 ∨ n > 4`, so the out-of-range index 4 is accepted. -/
def validate_dnstype (dnstype : DnsType) : Except String DnsType :=
  match dnstype with
  | .str s =>
    match dns_types.findIdx? (fun t => t == s) with
    | some i => .ok (.int (Int.ofNat i))
    | none => .error (s ++ " is not in list")
  | .int n =>
    if n < 0 ∨ n > (dns_types.length : Int) then
      .error "Invalid DNS type"
    else .ok (.int n)

/-- The in-place update loop of `add_dns` (lines 262-265): find the first
record with the same domain and the same (raw, unnormalized) dnstype, set its
value, and return the mutated list; `none` when no record matches. -/
def updateFirst (subsubdomain : String) (dnstype : DnsType) (value : String) :
    List DnsRecord → Option (List DnsRecord)
  | [] => none
  | r :: rest =>
    if r.domain = subsubdomain ∧ r.type = dnstype then
      some ({ r with value := value } :: rest)
    else
      match updateFirst subsubdomain dnstype value rest with
      | some rest' => some (r :: rest')
      | none => none

/-- `Requestrepo.add_dns` (lines 253-276) as a function of the record list
that `self.dns()` fetches; the first component is the trace of network calls
in program order.  The fetch happens before anything else; the in-place
update check compares the raw `dnstype` before any normalization; validation
runs only when no record matched. -/
def add_dns (remote : List DnsRecord) (subsubdomain : String) (dnstype : DnsType)
    (value : String) : List NetOp × DnsCall :=
  match updateFirst subsubdomain dnstype value remote with
  | some records => ([.getDns, .updateDns records], .updated records)
  | none =>
    match validate_dnstype dnstype with
    | .error e => ([.getDns], .raised e)
    | .ok ntype =>
      let records := remote ++ [{ type := ntype, domain := subsubdomain, value := value }]
      ([.getDns, .updateDns records], .updated records)

/-- `Requestrepo.remove_dns` (lines 279-301) as a function of the fetched
record list.  The source filters with subscript access on pydantic models
(`record["domain"]`), modelled here as field access; the keep-condition is
`domain != subsubdomain and (dnstype == None or type != dnstype)`. -/
def remove_dns (remote : List DnsRecord) (subsubdomain : String)
    (dnstype : Option DnsType) : List NetOp × DnsCall :=
  let validated : Except String (Option DnsType) :=
    match dnstype with
    | none => .ok none
    | some t =>
      match validate_dnstype t with
      | .error e => .error e
      | .ok t' => .ok (some t')
  match validated with
  | .error e => ([.getDns], .raised e)
  | .ok ntype =>
    let records := remote.filter (fun r =>
      decide (r.domain ≠ subsubdomain ∧ (ntype = none ∨ some r.type ≠ ntype)))
    if records.length = remote.length then ([.getDns], .removedNothing)
    else ([.getDns, .updateDns records], .updated records)

/-- An existing remote record: domain "x" with the NUMERIC type 0 ("A"). -/
def recA0 : DnsRecord := { type := .int 0, domain := "x", value := "old" }

/-- Python truthiness of an optional string: `None` and `""` are falsy. -/
def truthy : Option String → Bool
  | none => false
  | some s => !s.isEmpty

/-- The token-resolution prefix of `__init__` (lines 47-63): fall back from
the explicit argument to the environment variable, compute `info = not token`
only AFTER the environment lookup, then fall back to the token-issuance API
call; the `[+] Running on ...` line is printed to stderr iff `info` is true.
Returns the resolved token and the `info` flag. -/
def resolve_token (explicit env : Option String) (api_token : String) :
    String × Bool :=
  let token1 := if truthy explicit then explicit else env
  let info := !truthy token1
  let token2 := if truthy token1 then token1 else some api_token
  (token2.getD "", info)

/-- `models.HttpResponse` (pydantic model), the shape `self.response()`
returns: decoded raw bytes, a headers dict (ordered association list) and a
status code. -/
structure HttpResponse where
  raw : List Nat
  headers : List (String × String)
  status_code : Int
deriving DecidableEq

/-- The `headers` slot of the update payload: either still a Python dict or a
list of header/value entries — mirroring the runtime type check
`if type(data["headers"]) == dict` in the source. -/
inductive HeadersArg where
  | dict : List (String × String) → HeadersArg
  | list : List (String × String) → HeadersArg
deriving DecidableEq

/-- Python truthiness of a headers value: empty dict and empty list are
falsy. -/
def HeadersArg.pyTruthy : HeadersArg → Bool
  | .dict d => !d.isEmpty
  | .list l => !l.isEmpty

/-- Python truthiness of an optional bytes argument. -/
def truthyBytes : Option (List Nat) → Bool
  | none => false
  | some b => !b.isEmpty

/-- Python truthiness of an optional int argument: `None` and `0` are
falsy. -/
def truthyInt : Option Int → Bool
  | none => false
  | some n => n != 0

/-- Python truthiness of the optional headers argument. -/
def headersTruthy : Option HeadersArg → Bool
  | none => false
  | some h => h.pyTruthy

/-- The JSON payload POSTed to `/api/update_file`. -/
structure UpdatePayload where
  raw : String
  headers : HeadersArg
  status_code : Int
deriving DecidableEq

/-- The final header normalization of `update_http` (lines 232-234): a dict
becomes `[{"header": k, "value": v} for k, v in items]`; a list passes
through as given. -/
def normalize_headers : HeadersArg → HeadersArg
  | .dict d => .list d
  | .list l => .list l

/-- `Requestrepo.update_http` (lines 216-237) with the `response` argument
omitted: `remote` is the configuration `self.response()` fetched from the
remote service (its `headers` a dict, per the normalization in `response()`,
line 212).  Truthy arguments overwrite the corresponding field; `raw` is then
base64-encoded for the wire and a headers dict is normalized to a list. -/
def update_http (remote : HttpResponse) (raw : Option (List Nat))
    (headers : Option HeadersArg) (status_code : Option Int) : UpdatePayload :=
  let h1 : HeadersArg :=
    match headers with
    | some h => if h.pyTruthy then h else .dict remote.headers
    | none => .dict remote.headers
  let r1 : List Nat :=
    match raw with
    | some b => if !b.isEmpty then b else remote.raw
    | none => remote.raw
  let s1 : Int :=
    match status_code with
    | some n => if n != 0 then n else remote.status_code
    | none => remote.status_code
  { raw := b64encode r1, headers := normalize_headers h1, status_code := s1 }

/-- A concrete fetched remote configuration. -/
def remoteResp : HttpResponse :=
  { raw := [104, 105], headers := [("X-Old", "1")], status_code := 200 }

theorem scanQueue_of_split (p : Request → Bool) (pre : List Request) (r : Request)
    (post : List Request) (hpre : ∀ x ∈ pre, p x = false) (hr : p r = true) :
    scanQueue p (pre ++ r :: post) = some (r, pre ++ post) := by
  induction pre with
  | nil => simp [scanQueue, hr]
  | cons a rest ih =>
    have ha : p a = false := hpre a (by simp)
    have ih' := ih (fun x hx => hpre x (by simp [hx]))
    simp [scanQueue, ha, ih']

theorem scanQueue_eq_none (p : Request → Bool) (queue : List Request)
    (h : ∀ x ∈ queue, p x = false) : scanQueue p queue = none := by
  induction queue with
  | nil => rfl
  | cons a rest ih =>
    have ha : p a = false := h a (by simp)
    have ih' := ih (fun x hx => h x (by simp [hx]))
    simp [scanQueue, ha, ih']

theorem drawLoop_of_split (p : Request → Bool) (queue pre : List Request) (r : Request)
    (post : List Request) (hpre : ∀ x ∈ pre, p x = false) (hr : p r = true) :
    drawLoop (some p) queue (pre ++ r :: post) = some (r, queue ++ pre, post) := by
  induction pre generalizing queue with
  | nil => simp [drawLoop, hr]
  | cons a rest ih =>
    have ha : p a = false := hpre a (by simp)
    have ih' := ih (queue ++ [a]) (fun x hx => hpre x (by simp [hx]))
    simp [drawLoop, ha, ih']

/-- C1: with a predicate and a non-empty buffer, `get_request` scans the
buffer head-to-tail and removes and returns the first match, preserving the
relative order of the remaining buffered events and leaving the channel
untouched; when no buffered event matches, it repeatedly draws from the
channel, appends each non-matching event to the tail of the buffer in
arrival order, and returns the first matching event without buffering it. -/
theorem c1_filtered_retrieval (p : Request → Bool) (queue chan : List Request)
    (hq : queue ≠ []) :
    (∀ pre r post, queue = pre ++ r :: post → (∀ x ∈ pre, p x = false) → p r = true →
      get_request (some p) queue chan = some (r, pre ++ post, chan)) ∧
    ((∀ x ∈ queue, p x = false) →
      ∀ pre r post, chan = pre ++ r :: post → (∀ x ∈ pre, p x = false) → p r = true →
        get_request (some p) queue chan = some (r, queue ++ pre, post)) := by
  constructor
  · intro pre r post hsplit hpre hr
    have hscan := scanQueue_of_split p pre r post hpre hr
    simp [get_request, hsplit, List.isEmpty_iff, hscan]
  · intro hnone pre r post hsplit hpre hr
    have hscan := scanQueue_eq_none p queue hnone
    have hdraw := drawLoop_of_split p queue pre r post hpre hr
    simp [get_request, List.isEmpty_iff, hq, hscan, hsplit, hdraw]

/-- C2 is false on the code: after `get_request(P)` returns `evB` and leaves
`evA` buffered, a `get_request` call with NO predicate skips the buffer
entirely (`if filter and self.__queue:` needs a truthy `filter`) and returns
`evC` freshly drawn from the channel, not the buffered `evA`. -/
theorem c2_no_filter_skips_buffer :
    get_request (some predB) [] [evA, evB, evC] = some (evB, [evA], [evC]) ∧
    get_request none [evA] [evC] = some (evC, [evA], []) ∧
    evC ≠ evA := by
  refine ⟨rfl, rfl, by decide⟩

/-- C2 amended: `get_request(P)` returns `evB` and buffers `evA`; a subsequent
call with no predicate bypasses the buffer and returns `evC` drawn from the
channel, leaving `evA` buffered; `evA` is only returned by a later call whose
predicate matches it, with no channel activity. -/
theorem c2_buffering_scenario :
    get_request (some predB) [] [evA, evB, evC] = some (evB, [evA], [evC]) ∧
    get_request none [evA] [evC] = some (evC, [evA], []) ∧
    get_request (some predA) [evA] [] = some (evA, [], []) := by
  refine ⟨rfl, rfl, rfl⟩

theorem scanQueue_eq_some (p : Request → Bool) (queue : List Request)
    (r : Request) (q' : List Request) (h : scanQueue p queue = some (r, q')) :
    ∃ pre post, queue = pre ++ r :: post ∧ q' = pre ++ post ∧
      (∀ x ∈ pre, p x = false) ∧ p r = true := by
  induction queue generalizing q' with
  | nil => simp [scanQueue] at h
  | cons a rest ih =>
    cases hpa : p a with
    | true =>
      simp only [scanQueue, hpa, if_true, Option.some.injEq, Prod.mk.injEq] at h
      obtain ⟨hr1, hr2⟩ := h
      subst hr1
      subst hr2
      exact ⟨[], rest, rfl, rfl, by simp, hpa⟩
    | false =>
      rw [scanQueue, if_neg (by simp [hpa])] at h
      cases hrec : scanQueue p rest with
      | none =>
        rw [hrec] at h
        exact absurd h (by simp)
      | some v =>
        obtain ⟨q0, rest'⟩ := v
        rw [hrec] at h
        simp only [Option.some.injEq, Prod.mk.injEq] at h
        obtain ⟨hq0, hq'⟩ := h
        subst hq0
        obtain ⟨pre, post, h1, h2, h3, h4⟩ := ih rest' hrec
        refine ⟨a :: pre, post, ?_, ?_, ?_, h4⟩
        · simp [h1]
        · rw [← hq', h2]; rfl
        · intro x hx
          rcases List.mem_cons.mp hx with hxa | hxp
          · rw [hxa]; exact hpa
          · exact h3 x hxp

theorem drawLoop_eq_some (p : Request → Bool) (queue chan : List Request)
    (r : Request) (q' c' : List Request)
    (h : drawLoop (some p) queue chan = some (r, q', c')) :
    ∃ pre post, chan = pre ++ r :: post ∧ q' = queue ++ pre ∧ c' = post ∧
      (∀ x ∈ pre, p x = false) ∧ p r = true := by
  induction chan generalizing queue with
  | nil => simp [drawLoop] at h
  | cons a rest ih =>
    cases hpa : p a with
    | true =>
      simp only [drawLoop, hpa, if_true, Option.some.injEq, Prod.mk.injEq] at h
      obtain ⟨hr1, hr2, hr3⟩ := h
      subst hr1
      subst hr2
      subst hr3
      exact ⟨[], rest, rfl, by simp, rfl, by simp, hpa⟩
    | false =>
      rw [drawLoop] at h
      simp only [hpa] at h
      rw [if_neg (by simp)] at h
      obtain ⟨pre, post, h1, h2, h3, h4, h5⟩ := ih (queue ++ [a]) h
      refine ⟨a :: pre, post, by simp [h1], by simp [h2], h3, ?_, h5⟩
      intro x hx
      rcases List.mem_cons.mp hx with hxa | hxp
      · rw [hxa]; exact hpa
      · exact h4 x hxp

theorem drawLoop_none_eq_some (queue chan : List Request) (r : Request)
    (q' c' : List Request) (h : drawLoop none queue chan = some (r, q', c')) :
    chan = r :: c' ∧ q' = queue := by
  cases chan with
  | nil => simp [drawLoop] at h
  | cons a rest =>
    simp only [drawLoop, Option.some.injEq, Prod.mk.injEq] at h
    obtain ⟨h1, h2, h3⟩ := h
    subst h1
    subst h2
    subst h3
    exact ⟨rfl, rfl⟩

theorem perm_sublist_remove_mid (pre post tail : List Request) (r : Request) :
    (r :: ((pre ++ post) ++ tail)).Perm ((pre ++ r :: post) ++ tail) ∧
      ((pre ++ post) ++ tail).Sublist ((pre ++ r :: post) ++ tail) := by
  constructor
  · have h1 : (pre ++ post) ++ tail = pre ++ (post ++ tail) := by simp
    have h2 : (pre ++ r :: post) ++ tail = pre ++ r :: (post ++ tail) := by simp
    rw [h1, h2]
    exact List.perm_middle.symm
  · exact ((List.sublist_cons_self r post).append_left pre).append_right tail

theorem perm_sublist_draw (queue pre post : List Request) (r : Request) :
    (r :: ((queue ++ pre) ++ post)).Perm (queue ++ (pre ++ r :: post)) ∧
      ((queue ++ pre) ++ post).Sublist (queue ++ (pre ++ r :: post)) := by
  have h2 : queue ++ (pre ++ r :: post) = (queue ++ pre) ++ r :: post := by simp
  constructor
  · rw [h2]
    exact List.perm_middle.symm
  · rw [h2]
    exact (List.sublist_cons_self r post).append_left (queue ++ pre)

/-- Conservation across one `get_request` call: the returned event together
with the new buffer and the unconsumed channel is a permutation of the old
buffer and channel; the new buffer and channel keep relative order (jointly a
sublist of the old arrival order) and the unconsumed channel is a suffix of
the old one. -/
theorem get_request_conservation (f : Option (Request → Bool))
    (queue chan : List Request) (r : Request) (q' c' : List Request)
    (h : get_request f queue chan = some (r, q', c')) :
    (r :: (q' ++ c')).Perm (queue ++ chan) ∧ (q' ++ c').Sublist (queue ++ chan) ∧
      c' <:+ chan := by
  have hmain : (∃ pre post, queue = pre ++ r :: post ∧ q' = pre ++ post ∧ c' = chan) ∨
      (∃ pre post, chan = pre ++ r :: post ∧ q' = queue ++ pre ∧ c' = post) := by
    match f with
    | none =>
      obtain ⟨h1, h2⟩ := drawLoop_none_eq_some queue chan r q' c' h
      exact Or.inr ⟨[], c', by simpa using h1, by simp [h2], rfl⟩
    | some p =>
      rw [get_request] at h
      by_cases hq : queue.isEmpty
      · rw [if_pos hq] at h
        obtain ⟨pre, post, h1, h2, h3, _, _⟩ := drawLoop_eq_some p queue chan r q' c' h
        exact Or.inr ⟨pre, post, h1, h2, h3⟩
      · rw [if_neg hq] at h
        cases hscan : scanQueue p queue with
        | some v =>
          obtain ⟨r0, queue0⟩ := v
          rw [hscan] at h
          simp only [Option.some.injEq, Prod.mk.injEq] at h
          obtain ⟨h1, h2, h3⟩ := h
          rw [h1] at hscan
          obtain ⟨pre, post, hs1, hs2, _, _⟩ := scanQueue_eq_some p queue r queue0 hscan
          exact Or.inl ⟨pre, post, hs1, h2.symm.trans hs2, h3.symm⟩
        | none =>
          rw [hscan] at h
          obtain ⟨pre, post, h1, h2, h3, _, _⟩ := drawLoop_eq_some p queue chan r q' c' h
          exact Or.inr ⟨pre, post, h1, h2, h3⟩
  rcases hmain with ⟨pre, post, h1, h2, h3⟩ | ⟨pre, post, h1, h2, h3⟩
  · rw [h1, h2, h3]
    obtain ⟨hperm, hsub⟩ := perm_sublist_remove_mid pre post chan r
    exact ⟨hperm, hsub, List.suffix_refl chan⟩
  · rw [h1, h2, h3]
    obtain ⟨hperm, hsub⟩ := perm_sublist_draw queue pre post r
    exact ⟨hperm, hsub, ⟨pre ++ [r], by simp⟩⟩

/-- C3 is false on the code: with events `evA` then `evB` and a first call
whose predicate matches only `evB`, `evB` is returned before `evA` even
though `evA` arrived strictly earlier, so events are not collectively
returned in arrival order. -/
theorem c3_out_of_order_return :
    runCalls [some predB, some predA] [] [evA, evB] = ([evB, evA], [], []) ∧
    [evB, evA] ≠ [evA, evB] := by
  refine ⟨rfl, by decide⟩

/-- C3 amended: across any sequence of `get_request` calls, the events handed
to callers together with the final buffer and the never-drawn channel events
are a permutation of the initial buffer and channel (each event accounted for
exactly once — no loss, no duplication); the final buffer and remaining
channel jointly preserve relative arrival order, and the remaining channel is
a suffix of the original.  Returned order may differ from arrival order, and
a call with no predicate bypasses (and so strands) buffered events. -/
theorem c3_conservation (calls : List (Option (Request → Bool)))
    (queue chan : List Request) :
    ((runCalls calls queue chan).1 ++ (runCalls calls queue chan).2.1 ++
        (runCalls calls queue chan).2.2).Perm (queue ++ chan) ∧
      ((runCalls calls queue chan).2.1 ++ (runCalls calls queue chan).2.2).Sublist
        (queue ++ chan) ∧
      (runCalls calls queue chan).2.2 <:+ chan := by
  induction calls generalizing queue chan with
  | nil =>
    refine ⟨?_, ?_, ?_⟩
    · simp [runCalls]
    · simp only [runCalls]
      exact List.Sublist.refl _
    · simp only [runCalls]
      exact List.suffix_refl chan
  | cons f fs ih =>
    cases hcall : get_request f queue chan with
    | none =>
      simp only [runCalls, hcall]
      exact ⟨by simp, List.Sublist.refl _, List.suffix_refl chan⟩
    | some v =>
      obtain ⟨r, queue', chan'⟩ := v
      obtain ⟨hperm, hsub, hsuf⟩ :=
        get_request_conservation f queue chan r queue' chan' hcall
      obtain ⟨ihperm, ihsub, ihsuf⟩ := ih queue' chan'
      simp only [runCalls, hcall]
      refine ⟨?_, ?_, ?_⟩
      · have hstep := (List.Perm.cons r ihperm).trans hperm
        simpa using hstep
      · exact ihsub.trans hsub
      · exact ihsuf.trans hsuf

theorem c1_filtered_retrieval_witness :
    get_request (some predB) [evA, evB, evC] [] = some (evB, [evA] ++ [evC], []) :=
  (c1_filtered_retrieval predB [evA, evB, evC] [] (by decide)).1 [evA] evB [evC] rfl
    (by decide) (by decide)

theorem drawLoopE_raised (p : Request → Except String Bool)
    (chan queue q' c' : List Request) (e : String)
    (h : drawLoopE p queue chan = .raised e q' c') :
    ∃ pre r post, chan = pre ++ r :: post ∧ q' = queue ++ pre ∧ c' = post ∧
      (∀ x ∈ pre, p x = .ok false) ∧ p r = .error e := by
  induction chan generalizing queue with
  | nil => simp [drawLoopE] at h
  | cons a rest ih =>
    cases hpa : p a with
    | error e0 =>
      simp only [drawLoopE, hpa, ExcOutcome.raised.injEq] at h
      obtain ⟨h1, h2, h3⟩ := h
      subst h1
      exact ⟨[], a, rest, rfl, by simp [h2], h3.symm, by simp, hpa⟩
    | ok b =>
      cases b with
      | true => simp [drawLoopE, hpa] at h
      | false =>
        rw [drawLoopE] at h
        simp only [hpa] at h
        obtain ⟨pre, r, post, h1, h2, h3, h4, h5⟩ := ih (queue ++ [a]) h
        refine ⟨a :: pre, r, post, by simp [h1], by simp [h2], h3, ?_, h5⟩
        intro x hx
        rcases List.mem_cons.mp hx with hxa | hxp
        · rw [hxa]; exact hpa
        · exact h4 x hxp

/-- C7: when the predicate raises on some event, the exception propagates to
the caller (`raised` outcome) and the buffer is not corrupted: everything
that was buffered before the call is still there, as a prefix, in its
original order (nothing removed or reordered), anything appended after it is
a drawn event that genuinely failed the predicate, and the unread channel
remainder is a suffix of the original channel. -/
theorem c7_exception_preserves_buffer (p : Request → Except String Bool)
    (queue chan : List Request) (e : String) (q' c' : List Request)
    (h : get_request_exc p queue chan = .raised e q' c') :
    queue <+: q' ∧ (∀ x ∈ q'.drop queue.length, p x = .ok false) ∧ c' <:+ chan := by
  rw [get_request_exc] at h
  by_cases hq : queue.isEmpty
  · rw [if_pos hq] at h
    obtain ⟨pre, r, post, h1, h2, h3, h4, _⟩ := drawLoopE_raised p chan queue q' c' e h
    subst h2
    subst h3
    refine ⟨⟨pre, rfl⟩, ?_, ⟨pre ++ [r], by simp [h1]⟩⟩
    intro x hx
    rw [List.drop_left] at hx
    exact h4 x hx
  · rw [if_neg hq] at h
    cases hscan : scanQueueE p queue with
    | error e0 =>
      rw [hscan] at h
      simp only [ExcOutcome.raised.injEq] at h
      obtain ⟨_, h2, h3⟩ := h
      subst h2
      subst h3
      exact ⟨List.prefix_refl queue, by simp, List.suffix_refl chan⟩
    | ok v =>
      rw [hscan] at h
      match v with
      | some (r, queue0) => simp at h
      | none =>
        simp only at h
        obtain ⟨pre, r, post, h1, h2, h3, h4, _⟩ :=
          drawLoopE_raised p chan queue q' c' e h
        subst h2
        subst h3
        refine ⟨⟨pre, rfl⟩, ?_, ⟨pre ++ [r], by simp [h1]⟩⟩
        intro x hx
        rw [List.drop_left] at hx
        exact h4 x hx

theorem c7_exception_preserves_buffer_witness :
    ([evB] : List Request) <+: [evB] ∧
      (∀ x ∈ ([evB] : List Request).drop ([evB] : List Request).length,
        predExc x = .ok false) ∧
      ([] : List Request) <:+ [evA] :=
  c7_exception_preserves_buffer predExc [evB] [evA] "boom" [evB] [] rfl

/-- C5 fails on the code: `evA` arrives on the FIRST instance's channel and is
buffered there by the first instance's filtered call; a later call on the
SECOND instance returns that very event out of the shared class-level queue,
consuming nothing from its own channel — one instance observes and removes
the buffered events of the other. -/
theorem c5_queue_shared_between_instances :
    get_request_fst (some predB)
        { sharedQueue := [], chan1 := [evA, evB], chan2 := [evC] } =
      some (evB, { sharedQueue := [evA], chan1 := [], chan2 := [evC] }) ∧
    get_request_snd (some predA)
        { sharedQueue := [evA], chan1 := [], chan2 := [evC] } =
      some (evA, { sharedQueue := [], chan1 := [], chan2 := [evC] }) :=
  ⟨rfl, rfl⟩

example : b64decode "aGk=" = [104, 105] := by decide

example : b64encode [104, 105] = "aGk=" := by decide

/-- C4: decoding base64-decodes the `raw` field first and dispatches strictly
on the tag: a `type="http"` payload successfully decodes to an HTTP event
whose raw bytes are exactly the base64-decoded bytes of the input's `raw`
field, a `type="dns"` payload likewise decodes to a DNS event with the same
raw-field property, and any other tag yields an error carrying the offending
tag — no fallback event shape is ever constructed. -/
theorem c4_decoder_dispatch (d : WireData) :
    (d.type = "http" → ∃ h : HttpRequest,
      decode_event d = .ok (.http h) ∧ h.raw = b64decode d.raw) ∧
    (d.type = "dns" → ∃ q : DnsRequest,
      decode_event d = .ok (.dns q) ∧ q.raw = b64decode d.raw) ∧
    (d.type ≠ "http" → d.type ≠ "dns" →
      decode_event d = .error ("Invalid request type: " ++ d.type)) := by
  refine ⟨?_, ?_, ?_⟩
  · intro hhttp
    have heq : decode_event d = .ok (.http
        { _id := d._id, type := d.type, raw := b64decode d.raw, uid := d.uid,
          ip := d.ip, country := d.country, port := d.port, date := d.date,
          headers := d.headers, method := d.method, protocol := d.protocol,
          path := d.path, fragment := d.fragment, query := d.query,
          url := d.url }) := by
      simp only [decode_event]
      rw [if_pos hhttp]
    exact ⟨_, heq, rfl⟩
  · intro hdns
    have hhttp : ¬d.type = "http" := by
      rw [hdns]
      decide
    have heq : decode_event d = .ok (.dns
        { _id := d._id, type := d.type, raw := b64decode d.raw, uid := d.uid,
          ip := d.ip, country := d.country, port := d.port, date := d.date,
          dtype := d.dtype, name := d.name, reply := d.reply }) := by
      simp only [decode_event]
      rw [if_neg hhttp, if_pos hdns]
    exact ⟨_, heq, rfl⟩
  · intro hhttp hdns
    simp only [decode_event]
    rw [if_neg hhttp, if_neg hdns]

theorem c4_decoder_dispatch_witness :
    (∃ h : HttpRequest, decode_event wireHttp = .ok (.http h) ∧
      h.raw = b64decode wireHttp.raw) ∧
    (∃ q : DnsRequest, decode_event wireDns = .ok (.dns q) ∧
      q.raw = b64decode wireDns.raw) ∧
    decode_event wireBad = .error ("Invalid request type: " ++ wireBad.type) :=
  ⟨(c4_decoder_dispatch wireHttp).1 rfl,
   (c4_decoder_dispatch wireDns).2.1 rfl,
   (c4_decoder_dispatch wireBad).2.2 (by decide) (by decide)⟩

/-- C6 fails on the code in two ways.  First, the integer 4 is outside the
valid indices of `["A", "AAAA", "CNAME", "TXT"]`, yet `add_dns` raises
nothing for it (the bounds check `dnstype > len(dns_types)` is off by one)
and happily stores a record of type 4.  Second, for a genuinely invalid
string the `ValueError` is raised only AFTER the `self.dns()` network fetch:
the trace at the moment of the raise already contains a network call. -/
theorem c6_validation_not_before_network :
    add_dns [] "x" (.int 4) "v" =
      ([.getDns, .updateDns [{ type := .int 4, domain := "x", value := "v" }]],
        .updated [{ type := .int 4, domain := "x", value := "v" }]) ∧
    add_dns [] "x" (.str "MX") "v" = ([.getDns], .raised "MX is not in list") ∧
    ([NetOp.getDns] : List NetOp) ≠ [] := by
  refine ⟨rfl, rfl, by simp⟩

/-- C6 amended: for `add_dns` (when no existing record matches the raw
`(domain, dnstype)` pair) and for `remove_dns`, a dnstype that is a string
not in the list, or an integer `< 0` or `> 4`, raises `ValueError` after the
record-fetch network call and before the update network call: the trace stops
at `[getDns]`.  The integer 4, although an invalid index, is accepted. -/
theorem c6_validation_after_fetch (remote : List DnsRecord) (sub : String)
    (t : DnsType) (v : String) (e : String) :
    (validate_dnstype t = .error e → updateFirst sub t v remote = none →
      add_dns remote sub t v = ([.getDns], .raised e) ∧
      remove_dns remote sub (some t) = ([.getDns], .raised e)) ∧
    (∀ n : Int, (∃ msg, validate_dnstype (.int n) = .error msg) ↔ n < 0 ∨ n > 4) ∧
    (∀ s, (∃ msg, validate_dnstype (.str s) = .error msg) ↔ s ∉ dns_types) := by
  refine ⟨?_, ?_, ?_⟩
  · intro hval hmatch
    constructor
    · rw [add_dns, hmatch, hval]
    · rw [remove_dns]
      simp only [hval]
  · intro n
    constructor
    · intro ⟨msg, hmsg⟩
      rw [validate_dnstype] at hmsg
      by_cases hcase : n < 0 ∨ n > (dns_types.length : Int)
      · simpa [dns_types] using hcase
      · rw [if_neg hcase] at hmsg
        exact absurd hmsg (by simp)
    · intro hcase
      refine ⟨"Invalid DNS type", ?_⟩
      rw [validate_dnstype, if_pos (by simpa [dns_types] using hcase)]
  · intro s
    constructor
    · rintro ⟨msg, hmsg⟩ hmem
      rw [validate_dnstype] at hmsg
      cases hfind : dns_types.findIdx? (fun t => t == s) with
      | some i =>
        rw [hfind] at hmsg
        exact absurd hmsg (by simp)
      | none =>
        have h2 := List.findIdx?_eq_none_iff.mp hfind s hmem
        simp at h2
    · intro hmem
      refine ⟨s ++ " is not in list", ?_⟩
      rw [validate_dnstype]
      have : dns_types.findIdx? (fun t => t == s) = none := by
        rw [List.findIdx?_eq_none_iff]
        intro x hx
        simp only [beq_eq_false_iff_ne, ne_eq]
        intro hxs
        exact hmem (hxs ▸ hx)
      rw [this]

theorem c6_validation_after_fetch_witness :
    add_dns [] "x" (.str "MX") "v2" = ([.getDns], .raised "MX is not in list") ∧
    remove_dns [] "x" (some (.str "MX")) = ([.getDns], .raised "MX is not in list") :=
  (c6_validation_after_fetch [] "x" (.str "MX") "v2" "MX is not in list").1
    rfl rfl

theorem updateFirst_of_split (sub : String) (t : DnsType) (v : String)
    (pre : List DnsRecord) (r : DnsRecord) (post : List DnsRecord)
    (hpre : ∀ x ∈ pre, ¬(x.domain = sub ∧ x.type = t))
    (hd : r.domain = sub) (ht : r.type = t) :
    updateFirst sub t v (pre ++ r :: post) =
      some (pre ++ { r with value := v } :: post) := by
  induction pre with
  | nil => simp [updateFirst, hd, ht]
  | cons a rest ih =>
    have ha := hpre a (by simp)
    have ih' := ih (fun x hx => hpre x (by simp [hx]))
    simp [updateFirst, ha, ih']

theorem updateFirst_eq_none (sub : String) (t : DnsType) (v : String)
    (remote : List DnsRecord)
    (h : ∀ x ∈ remote, ¬(x.domain = sub ∧ x.type = t)) :
    updateFirst sub t v remote = none := by
  induction remote with
  | nil => rfl
  | cons a rest ih =>
    have ha := h a (by simp)
    have ih' := ih (fun x hx => h x (by simp [hx]))
    simp [updateFirst, ha, ih']

/-- C9 fails on the code: with a stored record of numeric type 0 for domain
"x", `add_dns("x", "A", "new")` does NOT update it in place — the in-place
check compares the raw dnstype `"A"` against the stored `0`, and a string
never equals an int, so the loop misses; `"A"` is then normalized to 0 and a
second record with the same domain and equivalent type 0 is appended, the old
record keeping its old value. -/
theorem c9_mixed_type_appends_duplicate :
    add_dns [recA0] "x" (.str "A") "new" =
      ([.getDns,
        .updateDns [recA0, { type := .int 0, domain := "x", value := "new" }]],
        .updated [recA0, { type := .int 0, domain := "x", value := "new" }]) ∧
    recA0.domain = "x" ∧ recA0.value = "old" :=
  ⟨rfl, rfl, rfl⟩

/-- C9 amended: `add_dns` updates in place — first matching record's value
replaced, nothing appended — exactly when a stored record matches the raw
`(domain, dnstype)` pair, the dnstype compared in the representation the
caller passed, BEFORE normalization; when no record matches and the caller
passed a symbolic name, the appended record's type is the name's numeric
index in `["A", "AAAA", "CNAME", "TXT"]`.  A symbolic call never matches a
numerically-stored record and so appends a duplicate. -/
theorem c9_add_dns_update_or_append (remote : List DnsRecord) (sub : String)
    (t : DnsType) (v : String) :
    (∀ pre r post, remote = pre ++ r :: post →
      (∀ x ∈ pre, ¬(x.domain = sub ∧ x.type = t)) →
      r.domain = sub → r.type = t →
      add_dns remote sub t v =
        ([.getDns, .updateDns (pre ++ { r with value := v } :: post)],
          .updated (pre ++ { r with value := v } :: post))) ∧
    (∀ s i, t = .str s → dns_types.findIdx? (fun x => x == s) = some i →
      (∀ x ∈ remote, ¬(x.domain = sub ∧ x.type = t)) →
      add_dns remote sub t v =
        ([.getDns, .updateDns
            (remote ++ [{ type := .int (Int.ofNat i), domain := sub, value := v }])],
          .updated
            (remote ++ [{ type := .int (Int.ofNat i), domain := sub, value := v }]))) := by
  constructor
  · intro pre r post hsplit hpre hd ht
    rw [hsplit, add_dns, updateFirst_of_split sub t v pre r post hpre hd ht]
  · rintro s i rfl hfind hnomatch
    have hnone := updateFirst_eq_none sub (.str s) v remote hnomatch
    rw [add_dns, hnone]
    simp only [validate_dnstype, hfind]

theorem c9_add_dns_update_or_append_witness :
    add_dns [recA0] "x" (.int 0) "new2" =
      ([.getDns, .updateDns ([] ++ { recA0 with value := "new2" } :: [])],
        .updated ([] ++ { recA0 with value := "new2" } :: [])) :=
  (c9_add_dns_update_or_append [recA0] "x" (.int 0) "new2").1 [] recA0 []
    rfl (by simp) rfl rfl

/-- C8 fails on the code: when the token is obtained from the environment
variable (not explicitly supplied), `info` — computed after the environment
lookup — is `false`, so no diagnostic is emitted, although the claim demands
one in exactly this case. -/
theorem c8_env_token_no_diagnostic :
    resolve_token none (some "envtok") "apitok" = ("envtok", false) := rfl

/-- C8 amended: the stderr diagnostic is emitted iff the token is truthily
present neither in the explicit argument nor in the environment — that is,
exactly when it is auto-issued via the API; never when explicitly supplied,
and also never when it comes from the environment variable. -/
theorem c8_diagnostic_iff_api_issued (explicit env : Option String)
    (api : String) :
    (resolve_token explicit env api).2 = (!truthy explicit && !truthy env) := by
  rw [resolve_token]
  cases h : truthy explicit <;> simp [h]

/-- C10: with `response` omitted, the transmitted payload is the fetched
remote configuration with only the truthy arguments replaced — a field with
no (truthy) argument keeps the fetched value (`raw` in its base64 wire
form); the headers dict (supplied or fetched) is normalized to a list of
header/value entries, while a supplied headers list is transmitted as
given. -/
theorem c10_update_http_payload (remote : HttpResponse)
    (raw : Option (List Nat)) (headers : Option HeadersArg)
    (status_code : Option Int) :
    (truthyBytes raw = false →
      (update_http remote raw headers status_code).raw = b64encode remote.raw) ∧
    (∀ b, raw = some b → b ≠ [] →
      (update_http remote raw headers status_code).raw = b64encode b) ∧
    (headersTruthy headers = false →
      (update_http remote raw headers status_code).headers = .list remote.headers) ∧
    (∀ d, headers = some (.dict d) → d ≠ [] →
      (update_http remote raw headers status_code).headers = .list d) ∧
    (∀ l, headers = some (.list l) → l ≠ [] →
      (update_http remote raw headers status_code).headers = .list l) ∧
    (truthyInt status_code = false →
      (update_http remote raw headers status_code).status_code =
        remote.status_code) ∧
    (∀ n, status_code = some n → n ≠ 0 →
      (update_http remote raw headers status_code).status_code = n) := by
  refine ⟨?_, ?_, ?_, ?_, ?_, ?_, ?_⟩
  · intro hfalse
    cases raw with
    | none => simp [update_http]
    | some b =>
      simp only [truthyBytes, Bool.not_eq_true'] at hfalse
      simp [update_http, hfalse]
  · rintro b rfl hb
    have : b.isEmpty = false := by simpa using hb
    simp [update_http, this]
  · intro hfalse
    cases headers with
    | none => simp [update_http, normalize_headers]
    | some h =>
      simp only [headersTruthy, Bool.not_eq_true'] at hfalse
      cases h with
      | dict d =>
        have hd : d = [] := by
          simpa [HeadersArg.pyTruthy, List.isEmpty_iff] using hfalse
        simp [update_http, hd, HeadersArg.pyTruthy, normalize_headers]
      | list l =>
        have hl : l = [] := by
          simpa [HeadersArg.pyTruthy, List.isEmpty_iff] using hfalse
        simp [update_http, hl, HeadersArg.pyTruthy, normalize_headers]
  · rintro d rfl hd
    have : d.isEmpty = false := by simpa using hd
    simp [update_http, HeadersArg.pyTruthy, this, normalize_headers]
  · rintro l rfl hl
    have : l.isEmpty = false := by simpa using hl
    simp [update_http, HeadersArg.pyTruthy, this, normalize_headers]
  · intro hfalse
    cases status_code with
    | none => simp [update_http]
    | some n =>
      simp only [truthyInt, bne_eq_false_iff_eq] at hfalse
      simp [update_http, hfalse]
  · rintro n rfl hn
    simp [update_http, hn]

theorem c10_update_http_payload_witness :
    (update_http remoteResp none (some (.dict [("A", "b")])) (some 404)).raw =
      b64encode remoteResp.raw ∧
    (update_http remoteResp none (some (.dict [("A", "b")])) (some 404)).headers =
      .list [("A", "b")] ∧
    (update_http remoteResp none (some (.dict [("A", "b")])) (some 404)).status_code =
      404 :=
  ⟨(c10_update_http_payload remoteResp none (some (.dict [("A", "b")]))
      (some 404)).1 rfl,
   (c10_update_http_payload remoteResp none (some (.dict [("A", "b")]))
      (some 404)).2.2.2.1 [("A", "b")] rfl (by decide),
   (c10_update_http_payload remoteResp none (some (.dict [("A", "b")]))
      (some 404)).2.2.2.2.2.2 404 rfl (by decide)⟩

end Requestrepo
